import Mathlib

/-!
Verification development for the AWS S3 download plugin
(eodag/plugins/download/aws.py).

Strings are modelled as lists of characters (Python str values are
sequences of characters; all data handled here is ASCII).  Each Python
regular expression of the source is embedded as an executable Lean
matcher; anchored patterns over slash-separated object keys are
decomposed segment-wise (the character classes of those patterns never
contain a slash), while the three context patterns applied to product
titles and scene identifiers are run through a small greedy
backtracking engine that mirrors Python re semantics (leftmost match,
each quantifier taking the longest repetition first).
-/

/-- Python strings are modelled as lists of characters. -/
abbrev Str := List Char

/-- Coercion from Lean string literals to the character-list model. -/
def chars (s : String) : Str := s.toList

/-- Character class [0-9] of the source regexes. -/
def isDig (c : Char) : Bool := c.isDigit

/-- Character class [A-Z] of the source regexes. -/
def isUp (c : Char) : Bool := decide ('A' ≤ c) && decide (c ≤ 'Z')

/-- Character class [a-z] of the source regexes. -/
def isLow (c : Char) : Bool := decide ('a' ≤ c) && decide (c ≤ 'z')

/-- Character class [A-Z0-9] of the source regexes. -/
def isUpDig (c : Char) : Bool := isUp c || isDig c

/-- Character class [A-Z0-9_] of the source regexes. -/
def isUpDigU (c : Char) : Bool := isUp c || isDig c || decide (c = '_')

/-- Character class [a-z0-9] of the source regexes. -/
def isLowDig (c : Char) : Bool := isLow c || isDig c

/-- Word character class of Python re (ASCII fragment). -/
def isWordC (c : Char) : Bool := c.isAlphanum || decide (c = '_')

/-- Dot of Python re: any character except a newline. -/
def isDotC (c : Char) : Bool := decide (c ≠ '\n')

/-- Nonempty run of one character class (a regex plus over that class). -/
def allCls (p : Char → Bool) (x : Str) : Bool := !x.isEmpty && x.all p

/-- Python str.split with a one-character separator; always returns a
nonempty list of separator-free pieces. -/
def splitOnChar (sep : Char) : Str → List Str
  | [] => [[]]
  | c :: t =>
    match splitOnChar sep t with
    | [] => [[c]]
    | s :: rest => if c = sep then [] :: s :: rest else (c :: s) :: rest

/-- Splitting an object key or path on the slash separator. -/
def splitSlash (l : Str) : List Str := splitOnChar '/' l

/-- Inverse of splitting: join pieces with a slash separator. -/
def joinSlash : List Str → Str
  | [] => []
  | [x] => x
  | x :: xs => x ++ '/' :: joinSlash xs

/-- Python substring containment test (the needle occurs somewhere in
the haystack), as used by the in operator on str. -/
def strContainsB (needle : Str) : Str → Bool
  | [] => needle.isEmpty
  | c :: t => needle.isPrefixOf (c :: t) || strContainsB needle t

/-- Test that a list ends with the given suffix. -/
def endsWithL (sfx l : Str) : Bool :=
  decide (sfx.length ≤ l.length) && decide (l.drop (l.length - sfx.length) = sfx)

/-- Drop a suffix of the given length. -/
def dropSfx (n : Nat) (l : Str) : Str := l.take (l.length - n)

/-- Try candidates n, n-1, ..., 1 in that order and return the first
success: the backtracking order of a greedy regex quantifier. -/
def scanDown {β : Type} : Nat → (Nat → Option β) → Option β
  | 0, _ => none
  | n + 1, f =>
    match f (n + 1) with
    | some b => some b
    | none => scanDown n f

/-- Try indices n-1, n-2, ..., 0 in that order and return the first
success (greedy choice of the rightmost feasible split position). -/
def scanDownIdx {β : Type} : Nat → (Nat → Option β) → Option β
  | 0, _ => none
  | n + 1, f =>
    match f n with
    | some b => some b
    | none => scanDownIdx n f

/-- One element of an anchored regex: a literal, a greedy plus of a
character class, or a single dot. -/
inductive RItem where
  | lit (l : Str)
  | pls (p : Char → Bool)
  | dot1

/-- Greedy backtracking matcher for an anchored concatenation of
items, returning the number of characters consumed by each item.
Quantifiers take the longest repetition first and give back characters
only when the rest of the pattern cannot match, exactly as Python re
does on these patterns. -/
def matchSeq : List RItem → Str → Option (List Nat)
  | [], s => if s.isEmpty then some [] else none
  | .lit l :: rest, s =>
    if l.isPrefixOf s then (matchSeq rest (s.drop l.length)).map (l.length :: ·) else none
  | .pls p :: rest, s =>
    scanDown (s.takeWhile p).length (fun k => (matchSeq rest (s.drop k)).map (k :: ·))
  | .dot1 :: rest, s =>
    match s with
    | [] => none
    | c :: t => if isDotC c then (matchSeq rest t).map (1 :: ·) else none

/-- Substring of s covered by items i..j-1, given the consumed lengths. -/
def sliceOf (s : Str) (lens : List Nat) (i j : Nat) : Str :=
  (s.drop ((lens.take i).foldr (· + ·) 0)).take
    (((lens.drop i).take (j - i)).foldr (· + ·) 0)

/-- Item list of the structured-title pattern of get_chunk_dest_path,
regex ^\w+_\w+_(\w+)_(\w+)_(\w+)_(\w+)_(\w+)$ (the groups are the
items at indices 4, 6, 8, 10 and 12). -/
def titleItems : List RItem :=
  [.pls isWordC, .lit (chars "_"), .pls isWordC, .lit (chars "_"),
   .pls isWordC, .lit (chars "_"), .pls isWordC, .lit (chars "_"),
   .pls isWordC, .lit (chars "_"), .pls isWordC, .lit (chars "_"), .pls isWordC]

/-- Embedding of re.search of the structured-title pattern: the five
captured groups, or none when the title does not match. -/
def titleSearch (t : Str) : Option (Str × Str × Str × Str × Str) :=
  (matchSeq titleItems t).map (fun lens =>
    (sliceOf t lens 4 5, sliceOf t lens 6 7, sliceOf t lens 8 9,
     sliceOf t lens 10 11, sliceOf t lens 12 13))

/-- Item list of the datastrip-directory pattern of
get_chunk_dest_path, regex ^.+_(DS_\w+_+\w+_\w+)_\w+.\w+$ (the group
spans items 2 through 7; the unescaped dot of the source pattern is
the single-dot item at index 10). -/
def dsDirItems : List RItem :=
  [.pls isDotC, .lit (chars "_"), .lit (chars "DS_"), .pls isWordC,
   .pls (fun c => decide (c = '_')), .pls isWordC, .lit (chars "_"),
   .pls isWordC, .lit (chars "_"), .pls isWordC, .dot1, .pls isWordC]

/-- Embedding of re.search of the datastrip-directory pattern applied
to the originalSceneID property. -/
def dsDirSearch (sid : Str) : Option Str :=
  (matchSeq dsDirItems sid).map (fun lens => sliceOf sid lens 2 8)

/-- Item list of the S1 title-suffix pattern of get_chunk_dest_path,
regex ^.+_([A-Z0-9_]+_[A-Z0-9_]+_[A-Z0-9_]+_[A-Z0-9_]+)_\w+$ (the
group spans items 2 through 8). -/
def s1SfxItems : List RItem :=
  [.pls isDotC, .lit (chars "_"), .pls isUpDigU, .lit (chars "_"),
   .pls isUpDigU, .lit (chars "_"), .pls isUpDigU, .lit (chars "_"),
   .pls isUpDigU, .lit (chars "_"), .pls isWordC]

/-- Embedding of re.search of the S1 title-suffix pattern applied to
the product title. -/
def s1SfxSearch (t : Str) : Option Str :=
  (matchSeq s1SfxItems t).map (fun lens => sliceOf t lens 2 9)

/-! Key-pattern matchers.  Every S2 tile pattern of the source starts
with the same anchored head
tiles/([0-9]+)/([A-Z]+)/([A-Z]+)/([0-9]+)/([0-9]+)/([0-9]+)/([0-9]+)/
whose character classes exclude the slash, so a key is decomposed into
its slash-separated segments and the head is checked on the first
eight of them. -/

/-- Shared head of all S2 tile patterns: validates the first eight
segments and returns the captured tile1, tile2, tile3 and num groups
together with the remaining segments. -/
def s2TileHead : List Str → Option (Str × Str × Str × Str × List Str)
  | t0 :: t1 :: t2 :: t3 :: y :: mo :: d :: n :: rest =>
    if t0 = chars "tiles" ∧ allCls isDig t1 ∧ allCls isUp t2 ∧ allCls isUp t3 ∧
        allCls isDig y ∧ allCls isDig mo ∧ allCls isDig d ∧ allCls isDig n then
      some (t1, t2, t3, n, rest)
    else none
  | _ => none

/-- Segment R([0-9]+m) of S2L2A_TILE_IMG_REGEX: a leading R, then the
res group, digits followed by the letter m. -/
def parseResSeg : Str → Option Str
  | 'R' :: rest =>
    if rest.length ≥ 2 ∧ (dropSfx 1 rest).all isDig ∧ rest.getLast? = some 'm' then
      some rest
    else none
  | _ => none

/-- Segment ([A-Z0-9_]+)\.jp2 of S2L2A_TILE_IMG_REGEX: the returned
group excludes the extension. -/
def parseJp2Base (seg : Str) : Option Str :=
  if endsWithL (chars ".jp2") seg ∧ allCls isUpDigU (dropSfx 4 seg) then
    some (dropSfx 4 seg)
  else none

/-- Groups of S2L2A_TILE_IMG_REGEX. -/
structure TileImgG where
  t1 : Str
  t2 : Str
  t3 : Str
  num : Str
  res : Str
  file : Str
deriving DecidableEq

/-- Matcher of S2L2A_TILE_IMG_REGEX
(tiles/.../(num)/R(res)/(file).jp2, fully anchored). -/
def s2l2aTileImgMatch (key : Str) : Option TileImgG :=
  match s2TileHead (splitSlash key) with
  | some (t1, t2, t3, n, [rseg, fseg]) =>
    match parseResSeg rseg, parseJp2Base fseg with
    | some res, some file => some ⟨t1, t2, t3, n, res, file⟩
    | _, _ => none
  | _ => none

/-- Groups of the S2 tile patterns that capture num and one trailing
file group (which may span further slashes). -/
structure TileFileG where
  num : Str
  file : Str
deriving DecidableEq

/-- Tail of a pattern ending in a dot-plus group: the joined remaining
segments, required nonempty and newline-free. -/
def dotPlusTail (rest : List Str) : Option Str :=
  let rs := joinSlash rest
  if rs ≠ [] ∧ rs.all isDotC then some rs else none

/-- Matcher of S2L2A_TILE_AUX_DIR_REGEX
(tiles/.../(num)/auxiliary/(AUX_.+)). -/
def s2l2aTileAuxMatch (key : Str) : Option TileFileG :=
  match s2TileHead (splitSlash key) with
  | some (_, _, _, n, aux :: rest) =>
    if aux = chars "auxiliary" then
      match dotPlusTail rest with
      | some rs => if (chars "AUX_").isPrefixOf rs ∧ rs.length ≥ 5 then some ⟨n, rs⟩ else none
      | none => none
    else none
  | _ => none

/-- Groups of S2_TILE_QI_MSK_REGEX. -/
structure QiMskG where
  num : Str
  base : Str
  sfx : Str
deriving DecidableEq

/-- File suffix ([0-9]+m\.jp2) of S2_TILE_QI_MSK_REGEX. -/
def qiMskSfxOk (s : Str) : Bool :=
  endsWithL (chars "m.jp2") s && decide (s.length ≥ 6) && (dropSfx 5 s).all isDig

/-- Split a string at the last occurrence of a separator character.
Used where a greedy dot-plus group is followed by a separator and a
tail whose character class excludes that separator, so backtracking
always settles on the last occurrence. -/
def splitLastChar (sep : Char) (l : Str) : Option (Str × Str) :=
  let rev := l.reverse
  let after := rev.takeWhile (fun c => decide (c ≠ sep))
  if after.length = rev.length then none
  else some ((rev.drop (after.length + 1)).reverse, after.reverse)

/-- Split a string at its last underscore. -/
def splitLastUnderscore (l : Str) : Option (Str × Str) := splitLastChar '_' l

/-- Matcher of S2_TILE_QI_MSK_REGEX
(tiles/.../(num)/qi/(base)_(digits m.jp2)). -/
def s2TileQiMskMatch (key : Str) : Option QiMskG :=
  match s2TileHead (splitSlash key) with
  | some (_, _, _, n, q :: rest) =>
    if q = chars "qi" then
      match dotPlusTail rest with
      | some rs =>
        match splitLastUnderscore rs with
        | some (base, sfx) =>
          if base ≠ [] ∧ qiMskSfxOk sfx then some ⟨n, base, sfx⟩ else none
        | none => none
      | none => none
    else none
  | _ => none

/-- Matcher of S2_TILE_QI_PVI_REGEX (tiles/.../(num)/qi/L2A_PVI.jp2);
only the num group is used by its builder. -/
def s2TileQiPviMatch (key : Str) : Option Str :=
  match s2TileHead (splitSlash key) with
  | some (_, _, _, n, [q, f]) =>
    if q = chars "qi" ∧ f = chars "L2A_PVI.jp2" then some n else none
  | _ => none

/-- Matcher of S2_TILE_PREVIEW_DIR_REGEX (tiles/.../(num)/preview/(.+)). -/
def s2TilePreviewMatch (key : Str) : Option TileFileG :=
  match s2TileHead (splitSlash key) with
  | some (_, _, _, n, p :: rest) =>
    if p = chars "preview" then (dotPlusTail rest).map (fun rs => ⟨n, rs⟩) else none
  | _ => none

/-- Groups of S2_TILE_IMG_REGEX. -/
structure S2TileImgG where
  t1 : Str
  t2 : Str
  t3 : Str
  num : Str
  file : Str
deriving DecidableEq

/-- Matcher of S2_TILE_IMG_REGEX (tiles/.../(num)/([A-Z0-9_]+\.jp2));
the file group keeps the extension. -/
def s2TileImgMatch (key : Str) : Option S2TileImgG :=
  match s2TileHead (splitSlash key) with
  | some (t1, t2, t3, n, [fseg]) =>
    if endsWithL (chars ".jp2") fseg ∧ allCls isUpDigU (dropSfx 4 fseg) then
      some ⟨t1, t2, t3, n, fseg⟩
    else none
  | _ => none

/-- Matcher of S2_TILE_THUMBNAIL_REGEX (tiles/.../(num)/(preview\.\w+)). -/
def s2TileThumbMatch (key : Str) : Option TileFileG :=
  match s2TileHead (splitSlash key) with
  | some (_, _, _, n, [fseg]) =>
    if (chars "preview.").isPrefixOf fseg ∧ allCls isWordC (fseg.drop 8) then
      some ⟨n, fseg⟩
    else none
  | _ => none

/-- Matcher of S2_TILE_MTD_REGEX (tiles/.../(num)/metadata.xml). -/
def s2TileMtdMatch (key : Str) : Option Str :=
  match s2TileHead (splitSlash key) with
  | some (_, _, _, n, [fseg]) =>
    if fseg = chars "metadata.xml" then some n else none
  | _ => none

/-- Matcher of S2_TILE_AUX_DIR_REGEX (tiles/.../(num)/auxiliary/(.+)). -/
def s2TileAuxMatch (key : Str) : Option TileFileG :=
  match s2TileHead (splitSlash key) with
  | some (_, _, _, n, a :: rest) =>
    if a = chars "auxiliary" then (dotPlusTail rest).map (fun rs => ⟨n, rs⟩) else none
  | _ => none

/-- Matcher of S2_TILE_QI_DIR_REGEX (tiles/.../(num)/qi/(.+)). -/
def s2TileQiDirMatch (key : Str) : Option TileFileG :=
  match s2TileHead (splitSlash key) with
  | some (_, _, _, n, q :: rest) =>
    if q = chars "qi" then (dotPlusTail rest).map (fun rs => ⟨n, rs⟩) else none
  | _ => none

/-- Matcher of the generic S2_TILE_REGEX (tiles/.../(num)/(.+)). -/
def s2TileGenMatch (key : Str) : Option TileFileG :=
  match s2TileHead (splitSlash key) with
  | some (_, _, _, n, rest) => (dotPlusTail rest).map (fun rs => ⟨n, rs⟩)
  | _ => none

/-- Shared head of all S2 product patterns
products/([0-9]+)/([0-9]+)/([0-9]+)/([A-Z0-9_]+)/; returns the title
group and the remaining segments. -/
def s2ProdHead : List Str → Option (Str × List Str)
  | p0 :: y :: mo :: d :: t :: rest =>
    if p0 = chars "products" ∧ allCls isDig y ∧ allCls isDig mo ∧ allCls isDig d ∧
        allCls isUpDigU t then
      some (t, rest)
    else none
  | _ => none

/-- Matcher of S2_PROD_DS_MTD_REGEX
(products/.../datastrip/(.+)/metadata.xml); returns the num group. -/
def s2ProdDsMtdMatch (key : Str) : Option Str :=
  match s2ProdHead (splitSlash key) with
  | some (_, ds :: r2) =>
    if ds = chars "datastrip" ∧ r2.getLast? = some (chars "metadata.xml") then
      dotPlusTail r2.dropLast
    else none
  | _ => none

/-- Matcher of S2_PROD_DS_QI_REPORT_REGEX
(products/.../datastrip/(.+)/qi/(.+)_report\.xml).  The greedy num
group settles on the last qi segment that leaves a valid tail, hence
the descending scan over segment indices. -/
def s2ProdDsQiRepMatch (key : Str) : Option (Str × Str) :=
  match s2ProdHead (splitSlash key) with
  | some (_, ds :: r2) =>
    if ds = chars "datastrip" then
      scanDownIdx r2.length (fun j =>
        if r2.getD j [] = chars "qi" then
          match dotPlusTail (r2.take j), dotPlusTail (r2.drop (j + 1)) with
          | some num, some fstr =>
            if endsWithL (chars "_report.xml") fstr ∧ dropSfx 11 fstr ≠ [] then
              some (num, dropSfx 11 fstr)
            else none
          | _, _ => none
        else none)
    else none
  | _ => none

/-- Matcher of S2_PROD_DS_QI_REGEX
(products/.../datastrip/(.+)/qi/(.+)); returns (num, file). -/
def s2ProdDsQiMatch (key : Str) : Option (Str × Str) :=
  match s2ProdHead (splitSlash key) with
  | some (_, ds :: r2) =>
    if ds = chars "datastrip" then
      scanDownIdx r2.length (fun j =>
        if r2.getD j [] = chars "qi" then
          match dotPlusTail (r2.take j), dotPlusTail (r2.drop (j + 1)) with
          | some num, some fstr => some (num, fstr)
          | _, _ => none
        else none)
    else none
  | _ => none

/-- Matcher of S2_PROD_INSPIRE_REGEX (products/.../(inspire.xml)). -/
def s2ProdInspireMatch (key : Str) : Option Unit :=
  match s2ProdHead (splitSlash key) with
  | some (_, [f]) => if f = chars "inspire.xml" then some () else none
  | _ => none

/-- Matcher of S2_PROD_MTD_REGEX (products/.../(metadata.xml)). -/
def s2ProdMtdMatch (key : Str) : Option Unit :=
  match s2ProdHead (splitSlash key) with
  | some (_, [f]) => if f = chars "metadata.xml" then some () else none
  | _ => none

/-- Matcher of the generic S2_PROD_REGEX (products/.../(title)/(.+)). -/
def s2ProdGenMatch (key : Str) : Option Str :=
  match s2ProdHead (splitSlash key) with
  | some (_, rest) => dotPlusTail rest
  | _ => none

/-- Shared head of the four specific S1 patterns
GRD/([0-9]+)/([0-9]+)/([0-9]+)/([A-Z0-9]+)/([A-Z0-9]+)/([A-Z0-9_]+)/;
returns the remaining segments. -/
def s1Head : List Str → Option (List Str)
  | g0 :: y :: mo :: d :: beam :: ppol :: t :: rest =>
    if g0 = chars "GRD" ∧ allCls isDig y ∧ allCls isDig mo ∧ allCls isDig d ∧
        allCls isUpDig beam ∧ allCls isUpDig ppol ∧ allCls isUpDigU t then
      some rest
    else none
  | _ => none

/-- Greedy lowercase run followed by a dash, as in ([a-z]+)- of the S1
file patterns; returns the run and the remainder after the dash. -/
def parseLcDash (l : Str) : Option (Str × Str) :=
  let run := l.takeWhile isLow
  if run.isEmpty then none
  else
    match l.drop run.length with
    | '-' :: tail => some (run, tail)
    | _ => none

/-- Groups of S1_CALIB_REGEX. -/
structure S1CalibG where
  fp : Str
  fb : Str
  pol : Str
deriving DecidableEq

/-- Matcher of S1_CALIB_REGEX
(GRD/.../annotation/calibration/(prefix)-(beam)-(pol)\.xml). -/
def s1CalibMatch (key : Str) : Option S1CalibG :=
  match s1Head (splitSlash key) with
  | some (a :: c :: r2) =>
    if a = chars "annotation" ∧ c = chars "calibration" then
      match parseLcDash (joinSlash r2) with
      | some (fp, rest1) =>
        match parseLcDash rest1 with
        | some (fb, rest2) =>
          if endsWithL (chars ".xml") rest2 ∧ dropSfx 4 rest2 ≠ [] ∧
              (dropSfx 4 rest2).all isDotC then
            some ⟨fp, fb, dropSfx 4 rest2⟩
          else none
        | none => none
      | none => none
    else none
  | _ => none

/-- Groups of S1_ANNOT_REGEX. -/
structure S1AnnotG where
  fb : Str
  pol : Str
deriving DecidableEq

/-- Matcher of S1_ANNOT_REGEX (GRD/.../annotation/(beam)-(pol)\.xml). -/
def s1AnnotMatch (key : Str) : Option S1AnnotG :=
  match s1Head (splitSlash key) with
  | some (a :: r2) =>
    if a = chars "annotation" then
      match parseLcDash (joinSlash r2) with
      | some (fb, rest1) =>
        if endsWithL (chars ".xml") rest1 ∧ dropSfx 4 rest1 ≠ [] ∧
            (dropSfx 4 rest1).all isDotC then
          some ⟨fb, dropSfx 4 rest1⟩
        else none
      | none => none
    else none
  | _ => none

/-- Groups of S1_MEAS_REGEX. -/
structure S1MeasG where
  fb : Str
  pol : Str
  ext : Str
deriving DecidableEq

/-- Matcher of S1_MEAS_REGEX
(GRD/.../measurement/(beam)-(pol)\.(ext)); the extension class
[a-z0-9] contains no dot, so the greedy pol group settles on the last
dot. -/
def s1MeasMatch (key : Str) : Option S1MeasG :=
  match s1Head (splitSlash key) with
  | some (m :: r2) =>
    if m = chars "measurement" then
      match parseLcDash (joinSlash r2) with
      | some (fb, rest1) =>
        match splitLastChar '.' rest1 with
        | some (pol, ext) =>
          if pol ≠ [] ∧ pol.all isDotC ∧ allCls isLowDig ext then
            some ⟨fb, pol, ext⟩
          else none
        | none => none
      | none => none
    else none
  | _ => none

/-- Matcher of S1_REPORT_REGEX (GRD/.../(report-\w+\.pdf)). -/
def s1ReportMatch (key : Str) : Option Str :=
  match s1Head (splitSlash key) with
  | some [fseg] =>
    if (chars "report-").isPrefixOf fseg ∧ endsWithL (chars ".pdf") fseg ∧
        allCls isWordC (dropSfx 4 (fseg.drop 7)) then
      some fseg
    else none
  | _ => none

/-- Matcher of the generic S1_REGEX, whose year segment is exactly
four digits and whose title must start with S1; returns the file
group. -/
def s1GenMatch (key : Str) : Option Str :=
  match splitSlash key with
  | g0 :: y :: mo :: d :: beam :: ppol :: t :: rest =>
    if g0 = chars "GRD" ∧ y.length = 4 ∧ allCls isDig y ∧ allCls isDig mo ∧
        allCls isDig d ∧ allCls isUpDig beam ∧ allCls isUpDig ppol ∧
        (chars "S1").isPrefixOf t ∧ allCls isUpDigU (t.drop 2) then
      dotPlusTail rest
    else none
  | _ => none

/-- Product properties consulted by get_chunk_dest_path.  The title is
accessed unconditionally by the S2 and S1 context extraction;
originalSceneID is read with a default of the empty string. -/
structure Properties where
  title : Str
  originalSceneID : Option Str
  platformSerialIdentifier : Str
  polarizationMode : Str

/-- An EO product as seen by the download plugin: its product type tag
and its property bag. -/
structure Product where
  productType : Option Str
  props : Properties

/-- Python str(x) on the optional context fields: an absent value
(None) is interpolated by the percent-s conversions of the source as
the literal string None. -/
def pyStr : Option Str → Str
  | some s => s
  | none => chars "None"

/-- Python percent-03d conversion for the image numbers (1 or 2). -/
def pad3 (n : Nat) : Str :=
  let d := Nat.toDigits 10 n
  List.replicate (3 - d.length) '0' ++ d

/-- Python str.lower on an ASCII string. -/
def lowerStr (l : Str) : Str := l.map Char.toLower

/-- Python str.upper on an ASCII string. -/
def upperStr (l : Str) : Str := l.map Char.toUpper

/-- The S1_IMG_NB_PER_POLAR table: image number per polarization
channel, looked up with the product polarization mode and the
uppercased file polarization, defaulting to 1 at both levels. -/
def s1ImgNbPerPolar (mode polU : Str) : Nat :=
  let inner : Option (List (Str × Nat)) :=
    if mode = chars "SH" then some [(chars "HH", 1)]
    else if mode = chars "SV" then some [(chars "VV", 1)]
    else if mode = chars "DH" then some [(chars "HH", 1), (chars "HV", 2)]
    else if mode = chars "DV" then some [(chars "VV", 1), (chars "VH", 2)]
    else if mode = chars "HH" then some [(chars "HH", 1)]
    else if mode = chars "HV" then some [(chars "HV", 1)]
    else if mode = chars "VV" then some [(chars "VV", 1)]
    else if mode = chars "VH" then some [(chars "VH", 1)]
    else none
  match inner with
  | some tbl =>
    match List.lookup polU tbl with
    | some n => n
    | none => 1
  | none => 1

/-- Last piece of a string split on underscores (Python
split with index -1), used for the S2 processing level. -/
def lastUnderscorePart (pt : Str) : Str := ((splitOnChar '_' pt).getLast?).getD []

/-- Formatting of the S1 title suffix group:
group(1).lower().replace(underscore, dash). -/
def s1SfxFormat (g : Str) : Str :=
  (g.map Char.toLower).map (fun c => if c = '_' then '-' else c)

/-- Contextual fields computed by get_chunk_dest_path before rule
dispatch: title date token, title part 3, datastrip directory (str(0)
when absent), S2 processing level and S1 title suffix. -/
def ctxOf (p : Product) : Option Str × Option Str × Str × Str × Option Str :=
  match p.productType with
  | some pt =>
    if pt ≠ [] ∧ strContainsB (chars "S2_MSI") pt then
      let tg := titleSearch p.props.title
      (tg.map (·.1), tg.map (fun g => g.2.2.2.1),
       (match dsDirSearch (p.props.originalSceneID.getD []) with
        | some g => g
        | none => chars "0"),
       lastUnderscorePart pt, none)
    else if pt = chars "S1_SAR_GRD" then
      (none, none, chars "0", [], (s1SfxSearch p.props.title).map s1SfxFormat)
    else (none, none, chars "0", [], none)
  | none => (none, none, chars "0", [], none)

/-- First index at which the separator occurs in the string, if any. -/
def firstOcc (sep s : Str) : Option Nat :=
  (List.range (s.length + 1)).find? (fun i => sep.isPrefixOf (s.drop i))

/-- Python str.split with a nonempty separator string: left-to-right
non-overlapping occurrences. -/
def pySplitGo (sep : Str) : Nat → Str → List Str
  | 0, s => [s]
  | fuel + 1, s =>
    match firstOcc sep s with
    | none => [s]
    | some i => s.take i :: pySplitGo sep fuel (s.drop (i + sep.length))

/-- Python str.split(sep) followed by indexing with -1. -/
def pySplitLast (sep s : Str) : Str :=
  ((pySplitGo sep (s.length + 1) s).getLast?).getD s

/-- Python str.strip with a one-character argument. -/
def stripChar (c : Char) (l : Str) : Str :=
  ((l.dropWhile (· = c)).reverse.dropWhile (· = c)).reverse

/-- Embedding of get_chunk_dest_path: the destination path of one
object key under the given product context, or the NotAvailableError
message when no rule matches.  The rule chain reproduces the
if/elif order of the source exactly. -/
def getChunkDestPath (p : Product) (chunkKey : Str) (dirPfx : Option Str)
    (buildSafe : Bool) : Except Str Str :=
  if buildSafe = false then
    let dp := dirPfx.getD chunkKey
    .ok (pySplitLast (stripChar '/' dp ++ chars "/") chunkKey)
  else
    let c := ctxOf p
    let titleDate1 := c.1
    let titlePart3 := c.2.1
    let dsDir := c.2.2.1
    let s2Level := c.2.2.2.1
    let s1Sfx := c.2.2.2.2
    match s2l2aTileImgMatch chunkKey with
    | some g =>
      .ok (chars "GRANULE/" ++ g.num ++ chars "/IMG_DATA/R" ++ g.res ++ chars "/T" ++
        g.t1 ++ g.t2 ++ g.t3 ++ chars "_" ++ pyStr titleDate1 ++ chars "_" ++ g.file ++
        chars "_" ++ g.res ++ chars ".jp2")
    | none =>
    match s2l2aTileAuxMatch chunkKey with
    | some g => .ok (chars "GRANULE/" ++ g.num ++ chars "/AUX_DATA/" ++ g.file)
    | none =>
    match s2TileQiMskMatch chunkKey with
    | some g =>
      .ok (chars "GRANULE/" ++ g.num ++ chars "/QI_DATA/MSK_" ++ g.base ++
        chars "PRB_" ++ g.sfx)
    | none =>
    match s2TileQiPviMatch chunkKey with
    | some n =>
      .ok (chars "GRANULE/" ++ n ++ chars "/QI_DATA/" ++ pyStr titlePart3 ++
        chars "_" ++ pyStr titleDate1 ++ chars "_PVI.jp2")
    | none =>
    match s2TilePreviewMatch chunkKey with
    | some g => .ok (chars "GRANULE/" ++ g.num ++ chars "/preview/" ++ g.file)
    | none =>
    match s2TileImgMatch chunkKey with
    | some g =>
      .ok (chars "GRANULE/" ++ g.num ++ chars "/IMG_DATA/T" ++ g.t1 ++ g.t2 ++ g.t3 ++
        chars "_" ++ pyStr titleDate1 ++ chars "_" ++ g.file)
    | none =>
    match s2TileThumbMatch chunkKey with
    | some g => .ok (chars "GRANULE/" ++ g.num ++ chars "/" ++ g.file)
    | none =>
    match s2TileMtdMatch chunkKey with
    | some n => .ok (chars "GRANULE/" ++ n ++ chars "/MTD_TL.xml")
    | none =>
    match s2TileAuxMatch chunkKey with
    | some g => .ok (chars "GRANULE/" ++ g.num ++ chars "/AUX_DATA/AUX_" ++ g.file)
    | none =>
    match s2TileQiDirMatch chunkKey with
    | some g => .ok (chars "GRANULE/" ++ g.num ++ chars "/QI_DATA/" ++ g.file)
    | none =>
    match s2TileGenMatch chunkKey with
    | some g => .ok (chars "GRANULE/" ++ g.num ++ chars "/" ++ g.file)
    | none =>
    match s2ProdDsMtdMatch chunkKey with
    | some _ => .ok (chars "DATASTRIP/" ++ dsDir ++ chars "/MTD_DS.xml")
    | none =>
    match s2ProdDsQiRepMatch chunkKey with
    | some g =>
      .ok (chars "DATASTRIP/" ++ dsDir ++ chars "/QI_DATA/" ++ g.2 ++ chars ".xml")
    | none =>
    match s2ProdDsQiMatch chunkKey with
    | some g => .ok (chars "DATASTRIP/" ++ dsDir ++ chars "/QI_DATA/" ++ g.2)
    | none =>
    match s2ProdInspireMatch chunkKey with
    | some _ => .ok (chars "INSPIRE.xml")
    | none =>
    match s2ProdMtdMatch chunkKey with
    | some _ => .ok (chars "MTD_MSI" ++ s2Level ++ chars ".xml")
    | none =>
    match s2ProdGenMatch chunkKey with
    | some f => .ok f
    | none =>
    match s1CalibMatch chunkKey with
    | some g =>
      .ok (chars "annotation/calibration/" ++ g.fp ++ chars "-" ++
        lowerStr p.props.platformSerialIdentifier ++ chars "-" ++ g.fb ++
        chars "-grd-" ++ g.pol ++ chars "-" ++ pyStr s1Sfx ++ chars "-" ++
        pad3 (s1ImgNbPerPolar p.props.polarizationMode (upperStr g.pol)) ++
        chars ".xml")
    | none =>
    match s1AnnotMatch chunkKey with
    | some g =>
      .ok (chars "annotation/" ++ lowerStr p.props.platformSerialIdentifier ++
        chars "-" ++ g.fb ++ chars "-grd-" ++ g.pol ++ chars "-" ++ pyStr s1Sfx ++
        chars "-" ++ pad3 (s1ImgNbPerPolar p.props.polarizationMode (upperStr g.pol)) ++
        chars ".xml")
    | none =>
    match s1MeasMatch chunkKey with
    | some g =>
      .ok (chars "measurement/" ++ lowerStr p.props.platformSerialIdentifier ++
        chars "-" ++ g.fb ++ chars "-grd-" ++ g.pol ++ chars "-" ++ pyStr s1Sfx ++
        chars "-" ++ pad3 (s1ImgNbPerPolar p.props.polarizationMode (upperStr g.pol)) ++
        chars "." ++ g.ext)
    | none =>
    match s1ReportMatch chunkKey with
    | some f => .ok (p.props.title ++ chars ".SAFE-" ++ f)
    | none =>
    match s1GenMatch chunkKey with
    | some f => .ok f
    | none =>
      .error (chars "Ignored " ++ chunkKey ++ chars " out of SAFE matching pattern")

/-- Mutable plugin state of the download session (the cached s3
session is the only instance field ever assigned after construction). -/
structure PluginState where
  s3Session : Option Nat

/-- State-threaded call of get_chunk_dest_path: the source method
reads only the product, the chunk key and its arguments, and performs
no assignment, so the session state passes through unchanged. -/
def getChunkDestPathSt (st : PluginState) (p : Product) (chunkKey : Str)
    (dirPfx : Option Str) (buildSafe : Bool) : Except Str Str × PluginState :=
  (getChunkDestPath p chunkKey dirPfx buildSafe, st)

/-! Bucket-prefix compaction of _do_authentication.  For the first
pair of each bucket the loop extends a candidate common base segment
by segment and stops (one step back) as soon as the candidate is no
longer contained -- Python substring containment, not path-ancestor
containment -- in every prefix of that bucket. -/

/-- Number of pairs destined for the bucket (prefixes_in_bucket). -/
def bucketPfxCount (pairs : List (Str × Str)) (bucket : Str) : Nat :=
  (pairs.filter (fun q => decide (q.1 = bucket))).length

/-- Number of pairs of the bucket whose prefix contains the candidate
as a substring (the Python in operator on str). -/
def countContaining (pairs : List (Str × Str)) (bucket c : Str) : Nat :=
  (pairs.filter (fun q => decide (q.1 = bucket) && strContainsB c q.2)).length

/-- Join of the first i segments (the slash join of prefix_split[0:i]). -/
def joinTake (splits : List Str) (i : Nat) : Str := joinSlash (splits.take i)

/-- Loop of the common-base computation, indexed by the running
segment count i and a fuel bound. -/
def compactGo (pairs : List (Str × Str)) (bucket : Str) (splits : List Str) :
    Nat → Nat → Str
  | _, 0 => joinTake splits (splits.length - 1)
  | i, fuel + 1 =>
    if i < splits.length then
      if countContaining pairs bucket (joinTake splits i) < bucketPfxCount pairs bucket then
        joinTake splits (i - 1)
      else compactGo pairs bucket splits (i + 1) fuel
    else joinTake splits (splits.length - 1)

/-- Common base path computed by _do_authentication for a bucket from
the prefix of the pair being processed. -/
def commonBaseFor (pairs : List (Str × Str)) (bucket pfx : Str) : Str :=
  let splits := splitSlash pfx
  compactGo pairs bucket splits 1 (splits.length + 1)

/-- Path-segment ancestor test: the candidate is the empty string or
its segments are a leading run of the segments of the other path. -/
def isSegAncestorB (c pth : Str) : Bool :=
  decide (c = []) || (splitSlash c).isPrefixOf (splitSlash pth)

/-! Authentication chain of get_authenticated_objects.  The boto3
calls are abstracted by a probe oracle giving, per strategy index, the
outcome of the bounded listing probe against the store. -/

/-- Provider error codes classified as authentication failures
(AWS_AUTH_ERROR_MESSAGES). -/
def awsAuthErrorCodes : List Str :=
  [chars "AccessDenied", chars "InvalidAccessKeyId", chars "SignatureDoesNotMatch"]

/-- Outcome of the bounded listing probe of one strategy. -/
inductive ProbeRes where
  | ok
  | clientErr (code : Str)
  | profileNotFound
deriving DecidableEq

/-- Result of invoking one strategy: an authenticated object
collection, a None return (missing credentials for that strategy), or
a raised error. -/
inductive TryRes where
  | objects
  | noneRes
  | errClient (code : Str)
  | errProfileNotFound
deriving DecidableEq

/-- Lift a probe outcome to a strategy result. -/
def probeToTry : ProbeRes → TryRes
  | .ok => .objects
  | .clientErr code => .errClient code
  | .profileNotFound => .errProfileNotFound

/-- One strategy of the chain: 0 unsigned, 1 profile, 2 explicit key
pair, 3 ambient environment.  Strategies 1 and 2 return None without
probing when their credential entries are absent from the dict. -/
def tryAuthMethod (oracle : Nat → ProbeRes) (d : List (Str × Str)) (idx : Nat) : TryRes :=
  if idx = 0 then probeToTry (oracle 0)
  else if idx = 1 then
    if (List.lookup (chars "profile_name") d).isSome then probeToTry (oracle 1) else .noneRes
  else if idx = 2 then
    if (List.lookup (chars "aws_access_key_id") d).isSome ∧
        (List.lookup (chars "aws_secret_access_key") d).isSome then
      probeToTry (oracle 2)
    else .noneRes
  else probeToTry (oracle 3)

/-- Final result of the chain. -/
inductive ChainRes where
  | success (idx : Nat)
  | clientError (code : Str)
  | authError
deriving DecidableEq

/-- Chain loop: first strategy returning objects wins; a classified
client error or a missing profile moves to the next strategy; any
other client error is re-raised; exhaustion raises
AuthenticationError.  The second component records the strategies
actually invoked. -/
def authChainGo (oracle : Nat → ProbeRes) (d : List (Str × Str)) :
    List Nat → List Nat → ChainRes × List Nat
  | [], acc => (.authError, acc)
  | m :: ms, acc =>
    match tryAuthMethod oracle d m with
    | .objects => (.success m, acc ++ [m])
    | .noneRes => authChainGo oracle d ms (acc ++ [m])
    | .errClient code =>
      if code ∈ awsAuthErrorCodes then authChainGo oracle d ms (acc ++ [m])
      else (.clientError code, acc ++ [m])
    | .errProfileNotFound => authChainGo oracle d ms (acc ++ [m])

/-- Embedding of get_authenticated_objects: the environment strategy
(index 3) is deleted from the method list whenever the credential dict
is nonempty. -/
def getAuthenticatedObjects (oracle : Nat → ProbeRes) (d : List (Str × Str)) :
    ChainRes × List Nat :=
  let methods := if d ≠ [] then [0, 1, 2] else [0, 1, 2, 3]
  authChainGo oracle d methods []

/-! Bucket/prefix planner of _get_bucket_names_and_prefixes. -/

/-- An asset reference attached to a product: its key, optional href
and optional declared content type. -/
structure Asset where
  key : Str
  href : Option Str
  atype : Option Str
deriving DecidableEq

/-- Default asset used for safe head access. -/
def defaultAsset : Asset := ⟨[], none, none⟩

/-- Embedding of _get_bucket_names_and_prefixes.  The pair derivation
get_product_bucket_name_and_prefix delegates to an external URL
utility and is abstracted by the function bp (none stands for the
default product location).  An empty or absent filter pattern is falsy
in the source and is modelled as a none filter. -/
def getBucketNamesAndPfxs (bp : Option Str → Str × Str) (assets : List Asset)
    (filt : Option (Str → Bool)) (ignoreAssets : Bool) : Except Str (List (Str × Str)) :=
  if assets.length > 0 ∧ ignoreAssets = false then
    match filt with
    | some f =>
      let filtered := assets.filter (fun a => f a.key)
      let assetsValues := filtered.filter (fun a => a.href.isSome)
      if assetsValues.isEmpty then
        .error (chars "No asset key matching the filter was found")
      else .ok (assetsValues.map (fun a => bp (some (a.href.getD []))))
    | none => .ok (assets.map (fun a => bp (some (a.href.getD []))))
  else .ok [bp none]

/-! Chunked streaming reads of get_chunk_parts. -/

/-- Object contents are byte lists. -/
abbrev Bytes := List Nat

/-- Fixed window size of the source: 4096 * 1024 bytes. -/
def chunkSizeConst : Nat := 4096 * 1024

/-- Event stream of the chunk generator: each progress report carries
the byte length of the part it precedes. -/
inductive StreamEv where
  | progress (n : Nat)
  | data (b : Bytes)
deriving DecidableEq

/-- Modelled from the spec: the external object-store ranged read
(readRange collaborator, S3 GetObject with a bytes range).  A start
offset past the last byte of the object is not satisfiable and yields
a client error (HTTP 416 InvalidRange); otherwise the end offset is
clamped to the object size. -/
def rangedRead (content : Bytes) (a b : Nat) : Except Str Bytes :=
  if a < content.length then .ok ((content.drop a).take (b - a + 1))
  else .error (chars "InvalidRange")

/-- Loop of get_chunk_parts: while chunk_start is at most the object
size, read the next window, report its length, yield it and advance by
the window size; a client error is re-raised as a DownloadError. -/
def getChunkPartsGo (content : Bytes) (start : Nat) : Nat → List StreamEv × Option Str
  | 0 => ([], some (chars "fuel exhausted"))
  | fuel + 1 =>
    if start ≤ content.length then
      match rangedRead content start (start + chunkSizeConst - 1) with
      | .ok part =>
        let r := getChunkPartsGo content (start + chunkSizeConst) fuel
        (.progress part.length :: .data part :: r.1, r.2)
      | .error e => ([], some (chars "DownloadError: " ++ e))
    else ([], none)

/-- Embedding of get_chunk_parts on one object, with fuel ample for
every iteration the loop condition admits. -/
def getChunkParts (content : Bytes) : List StreamEv × Option Str :=
  getChunkPartsGo content 0 (content.length / chunkSizeConst + 2)

/-! Streaming response assembly of _stream_download_dict and
_stream_download. -/

/-- A surviving remote object: its key and its bytes. -/
structure SChunk where
  key : Str
  content : Bytes
deriving DecidableEq

/-- Default chunk used for safe head access. -/
def defaultChunk : SChunk := ⟨[], []⟩

/-- One zip-stream entry: relative path, the shared synthetic
modification timestamp, permission bits, declared size and the chunk
event stream of the member. -/
structure ZipEntry where
  path : Str
  modifiedAt : Nat
  perms : Nat
  size : Nat
  events : List StreamEv
  errOpt : Option Str
deriving DecidableEq

/-- Streaming response: either the raw chunk sequence of the single
asset with its headers, or a zip archive of entries. -/
inductive StreamResp where
  | raw (events : List StreamEv) (errOpt : Option Str) (headers : List (Str × Str))
  | zipped (entries : List ZipEntry) (mediaType : Str) (headers : List (Str × Str))

/-- Test for the raw response variant. -/
def isRawResp : StreamResp → Bool
  | .raw _ _ _ => true
  | .zipped _ _ _ => false

/-- Python os.path.basename: the part after the last slash. -/
def basenameOf (key : Str) : Str := ((splitSlash key).getLast?).getD []

/-- Python os.path.dirname: the part before the last slash, empty when
there is none. -/
def dirnameOf (pth : Str) : Str :=
  match splitLastChar '/' pth with
  | some (d, _) => d
  | none => []

/-- Longest common leading segment run of two segment lists. -/
def lcpSegs : List Str → List Str → List Str
  | x :: xs, y :: ys => if x = y then x :: lcpSegs xs ys else []
  | _, _ => []

/-- Modelled from the spec: os.path.commonpath on relative
slash-separated paths (longest common sub-path of the inputs). -/
def commonPathOf (paths : List Str) : Str :=
  match paths.map splitSlash with
  | [] => []
  | s :: ss => joinSlash (ss.foldl lcpSegs s)

/-- The re.sub of _stream_download that strips the computed common
path and an optional following slash from the front of an entry path
(the common paths arising here contain no regex metacharacters). -/
def stripCommonRe (common rel : Str) : Str :=
  if common.isPrefixOf rel then
    match rel.drop common.length with
    | '/' :: t => t
    | r => r
  else rel

/-- Raw branch of the _stream_download generator (one surviving asset
value): per object, resolve its destination (skipping objects out of
the SAFE layout) and yield its chunk parts; a DownloadError raised
inside a chunk stream ends the whole sequence. -/
def rawStreamGo (p : Product) (buildSafe : Bool) : List SChunk → List StreamEv × Option Str
  | [] => ([], none)
  | ch :: rest =>
    match getChunkDestPath p ch.key none buildSafe with
    | .error _ => rawStreamGo p buildSafe rest
    | .ok _ =>
      let r := getChunkParts ch.content
      match r.2 with
      | some e => (r.1, some e)
      | none =>
        let rr := rawStreamGo p buildSafe rest
        (r.1 ++ rr.1, rr.2)

/-- Zip branch of the _stream_download generator: one entry per object
whose destination resolves, carrying the shared timestamp, permission
bits 0o600, the declared size and the chunk event stream; under the
flatten option the entry path is rewritten under the product title. -/
def zipEntriesOf (modifiedAt : Nat) (p : Product) (buildSafe flatten : Bool)
    (common : Str) (chunks : List SChunk) : List ZipEntry :=
  chunks.filterMap (fun ch =>
    match getChunkDestPath p ch.key none buildSafe with
    | .error _ => none
    | .ok rp =>
      let rp2 := if flatten then p.props.title ++ '/' :: stripCommonRe common rp else rp
      let r := getChunkParts ch.content
      some ⟨rp2, modifiedAt, 384, ch.content.length, r.1, r.2⟩)

/-- Optional content-type header copied from the declared type of the
single asset value. -/
def hdrsTypeOf (avs : List Asset) : List (Str × Str) :=
  match (avs.headD defaultAsset).atype with
  | some t => [(chars "content-type", t)]
  | none => []

/-- Embedding of _stream_download_dict after planning, authentication
and listing: assetsValues is the asset-values list returned by the
asset filter and chunks the surviving unique objects in iteration
order; sanitizeF abstracts the external filename sanitizer
and modifiedAt the datetime captured once per call.  The branch tests
the number of asset values, not the number of surviving objects. -/
def streamDownloadDict (sanitizeF : Str → Str) (modifiedAt : Nat) (p : Product)
    (buildSafe flatten : Bool) (assetsValues : List Asset) (chunks : List SChunk) :
    StreamResp :=
  let common :=
    if flatten then
      commonPathOf (chunks.filterMap (fun ch => (getChunkDestPath p ch.key none buildSafe).toOption))
    else []
  let outputsFilename := sanitizeF p.props.title
  if assetsValues.length = 1 then
    let r := rawStreamGo p buildSafe chunks
    let fname := basenameOf ((chunks.headD defaultChunk).key)
    .raw r.1 r.2
      ((chars "content-disposition", chars "attachment; filename=" ++ fname) ::
        hdrsTypeOf assetsValues)
  else
    .zipped (zipEntriesOf modifiedAt p buildSafe flatten common chunks)
      (chars "application/zip")
      [(chars "content-disposition",
        chars "attachment; filename=" ++ outputsFilename ++ chars ".zip")]

/-! SAFE finalization of finalize_s2_safe_product. -/

/-- Cause of a finalization failure: the missing-manifest condition or
one of the later steps (manifest parsing, xpath indexing, renames). -/
inductive FinCause where
  | fileNotFound (msg : Str)
  | stepFailure (msg : Str)
deriving DecidableEq

/-- The DownloadError wrapper carrying the original cause. -/
inductive DlErr where
  | downloadError (cause : FinCause)
deriving DecidableEq

/-- Outcomes of the external collaborators used after the manifest is
located: the two xpath lookups (none models an empty result list,
whose first-element access raises IndexError) and the two subfolder
renames. -/
structure ManifestOracle where
  mtdTLHref : Option Str
  mtdDSHref : Option Str
  renameGranuleOk : Bool
  renameDatastripOk : Bool
deriving DecidableEq

/-- Body of finalize_s2_safe_product over the walked file tree: locate
manifest.safe (error when absent), create the standard empty dirs
(always succeeds), then rename the granule and datastrip folders from
the manifest references, any step failing with its cause. -/
def finalizeBody (fs : List Str) (omc : ManifestOracle) : Except FinCause Unit :=
  let manifests := fs.filter (fun pth => decide (basenameOf pth = chars "manifest.safe"))
  match manifests with
  | [] => .error (.fileNotFound (chars "No manifest.safe could be found"))
  | _ :: _ =>
    match omc.mtdTLHref with
    | none => .error (.stepFailure (chars "IndexError: no MTD_TL.xml fileLocation"))
    | some _ =>
      if omc.renameGranuleOk = false then .error (.stepFailure (chars "rename granule"))
      else
        match omc.mtdDSHref with
        | none => .error (.stepFailure (chars "IndexError: no MTD_DS.xml fileLocation"))
        | some _ =>
          if omc.renameDatastripOk = false then
            .error (.stepFailure (chars "rename datastrip"))
          else .ok ()

/-- Embedding of finalize_s2_safe_product: the whole body runs under a
catch-all handler that logs and re-raises any failure as a
DownloadError wrapping the original cause.  The second component is
the log output. -/
def finalizeS2SafeProduct (fs : List Str) (omc : ManifestOracle) :
    Except DlErr Unit × List Str :=
  match finalizeBody fs omc with
  | .ok u => (.ok u, [])
  | .error e =>
    (.error (.downloadError e),
     [chars "Could not finalize SAFE product from downloaded data"])

/-! Concrete fixtures used by the witness and counterexample
theorems. -/

/-- Example tile image key of the specification. -/
def keyC1 : Str := chars "tiles/31/T/CJ/2021/06/01/0/R10m/B02.jp2"

/-- Example QI mask key. -/
def keyQiMsk : Str := chars "tiles/31/T/CJ/2021/06/01/0/qi/CLD_20m.jp2"

/-- S2 L2A product whose structured title carries the date token
20210601T000000. -/
def prodC1 : Product :=
  { productType := some (chars "S2_MSI_L2A"),
    props := { title := chars "S2B_MSIL2A_20210601T000000_N0300_R094_T31TCJ_20210601T105604",
               originalSceneID := none,
               platformSerialIdentifier := chars "S2B",
               polarizationMode := chars "" } }

/-- S2 L2A product whose title does not parse under the structured
title grammar. -/
def prodFoo : Product :=
  { productType := some (chars "S2_MSI_L2A"),
    props := { title := chars "FOO",
               originalSceneID := none,
               platformSerialIdentifier := chars "S2B",
               polarizationMode := chars "" } }

/-- Product without any SAFE-specific type used by the streaming
counterexample. -/
def prodPlain : Product :=
  { productType := none,
    props := { title := chars "PRODTITLE",
               originalSceneID := none,
               platformSerialIdentifier := chars "",
               polarizationMode := chars "" } }

/-- Bucket-prefix pair list on which compaction produces a substring
that is not a path-segment ancestor. -/
def pairsC3 : List (Str × Str) := [(chars "b", chars "a/b"), (chars "b", chars "xa/c")]

/-- Credential dict carrying an explicit access-key/secret-key pair. -/
def dKeysC4 : List (Str × Str) :=
  [(chars "aws_access_key_id", chars "AKIAEXAMPLE"),
   (chars "aws_secret_access_key", chars "SECRETEXAMPLE")]

/-- Probe oracle for which the unsigned strategy and the supplied key
pair both fail with a classified auth error while the ambient
environment strategy would succeed. -/
def oracleC4 : Nat → ProbeRes := fun i =>
  if i = 0 ∨ i = 2 then .clientErr (chars "AccessDenied") else .ok

/-- Three assets, two of whose keys begin with B0. -/
def assetsC5 : List Asset :=
  [⟨chars "B01", some (chars "s3://bck/p/B01.jp2"), none⟩,
   ⟨chars "B02", some (chars "s3://bck/p/B02.jp2"), none⟩,
   ⟨chars "TCI", some (chars "s3://bck/p/TCI.jp2"), none⟩]

/-- Asset filter matching keys that begin with B0. -/
def filtC5 : Str → Bool := fun k => (chars "B0").isPrefixOf k

/-- Asset filter matching no asset key. -/
def filtC5none : Str → Bool := fun _ => false

/-- Pair derivation used by the planner witness: bucket bck with the
given href as prefix. -/
def bpC5 : Option Str → Str × Str := fun u => (chars "bck", u.getD (chars "loc"))

/-- Single surviving object of the streaming counterexample. -/
def chunkC7 : SChunk := ⟨chars "a/B02.jp2", [1, 2, 3]⟩

/-- Walked file tree without any manifest.safe. -/
def fsC8 : List Str := [chars "S2A.SAFE/GRANULE/x.jp2", chars "S2A.SAFE/INSPIRE.xml"]

/-- Manifest oracle whose collaborators all succeed. -/
def omcC8 : ManifestOracle :=
  ⟨some (chars "GRANULE/L2A_T31TCJ/MTD_TL.xml"),
   some (chars "DATASTRIP/DS/MTD_DS.xml"), true, true⟩

/-! Claim theorems. -/

/-- Claim C1: for an S2_MSI L2A product whose title parses under the
structured title grammar with date token 20210601T000000,
get_chunk_dest_path with build_safe on the key
tiles/31/T/CJ/2021/06/01/0/R10m/B02.jp2 returns exactly
GRANULE/0/IMG_DATA/R10m/T31TCJ_20210601T000000_B02_10m.jp2. -/
theorem claim1_s2l2a_img_example (p : Product) (g : Str × Str × Str × Str × Str)
    (hpt : p.productType = some (chars "S2_MSI_L2A"))
    (ht : titleSearch p.props.title = some g)
    (hg : g.1 = chars "20210601T000000") :
    getChunkDestPath p keyC1 none true =
      .ok (chars "GRANULE/0/IMG_DATA/R10m/T31TCJ_20210601T000000_B02_10m.jp2") := by
  have h1 : (ctxOf p).1 = some (chars "20210601T000000") := by
    simp only [ctxOf, hpt]
    rw [if_pos (by decide)]
    simp [ht, hg]
  simp only [getChunkDestPath]
  rw [show s2l2aTileImgMatch keyC1 =
    some ⟨chars "31", chars "T", chars "CJ", chars "0", chars "10m", chars "B02"⟩ from rfl]
  rw [h1]
  rfl

/-- Witness for C1: the example product satisfies the hypotheses and
resolves the example key to the expected SAFE path. -/
theorem claim1_s2l2a_img_example_witness :
    titleSearch prodC1.props.title =
      some (chars "20210601T000000", chars "N0300", chars "R094",
            chars "T31TCJ", chars "20210601T105604") ∧
    getChunkDestPath prodC1 keyC1 none true =
      .ok (chars "GRANULE/0/IMG_DATA/R10m/T31TCJ_20210601T000000_B02_10m.jp2") :=
  ⟨rfl, claim1_s2l2a_img_example prodC1 _ rfl rfl rfl⟩

/-- Claim C9: for a fixed key, product context and build_safe flag,
two successive state-threaded calls of get_chunk_dest_path return the
identical string and leave the session state untouched. -/
theorem claim9_deterministic (st : PluginState) (p : Product) (key : Str)
    (dp : Option Str) (bs : Bool) :
    (getChunkDestPathSt st p key dp bs).1 =
      (getChunkDestPathSt (getChunkDestPathSt st p key dp bs).2 p key dp bs).1 ∧
    (getChunkDestPathSt (getChunkDestPathSt st p key dp bs).2 p key dp bs).2 = st :=
  ⟨rfl, rfl⟩

/-- Claim C8: during SAFE finalization, an absent manifest.safe makes
the operation fail, and every failure of the finalization body is
caught, logged and re-raised as a DownloadError carrying the original
cause. -/
theorem claim8_finalize_wraps (fs : List Str) (omc : ManifestOracle) :
    ((∀ pth ∈ fs, ¬basenameOf pth = chars "manifest.safe") →
      ∃ msg, (finalizeS2SafeProduct fs omc).1 = .error (.downloadError (.fileNotFound msg))) ∧
    (∀ e, finalizeBody fs omc = .error e →
      (finalizeS2SafeProduct fs omc).1 = .error (.downloadError e) ∧
        (finalizeS2SafeProduct fs omc).2 ≠ []) := by
  constructor
  · intro h
    have hf : fs.filter (fun pth => decide (basenameOf pth = chars "manifest.safe")) = [] := by
      rw [List.filter_eq_nil_iff]
      intro a ha
      simpa using h a ha
    refine ⟨chars "No manifest.safe could be found", ?_⟩
    simp [finalizeS2SafeProduct, finalizeBody, hf]
  · intro e he
    simp [finalizeS2SafeProduct, he]

/-- Witness for C8: a tree without manifest.safe fails with a wrapped
missing-manifest DownloadError. -/
theorem claim8_finalize_wraps_witness :
    (∀ pth ∈ fsC8, ¬basenameOf pth = chars "manifest.safe") ∧
    ∃ msg, (finalizeS2SafeProduct fsC8 omcC8).1 = .error (.downloadError (.fileNotFound msg)) :=
  ⟨by decide, (claim8_finalize_wraps fsC8 omcC8).1 (by decide)⟩

/-- Claim C5: with asset-based resolution enabled and every asset
carrying an href, a filter matching K asset keys makes the planner
return exactly K bucket-prefix pairs, and raise NotAvailableError when
K is zero. -/
theorem claim5_planner (bp : Option Str → Str × Str) (assets : List Asset)
    (f : Str → Bool) (hne : assets ≠ []) (hhref : ∀ a ∈ assets, a.href.isSome) :
    ((assets.filter (fun a => f a.key)).length = 0 →
      ∃ msg, getBucketNamesAndPfxs bp assets (some f) false = .error msg) ∧
    (0 < (assets.filter (fun a => f a.key)).length →
      ∃ l, getBucketNamesAndPfxs bp assets (some f) false = .ok l ∧
        l.length = (assets.filter (fun a => f a.key)).length) := by
  have hlen : 0 < assets.length := List.length_pos.mpr hne
  have hfil : (assets.filter (fun a => f a.key)).filter (fun a => a.href.isSome) =
      assets.filter (fun a => f a.key) := by
    apply List.filter_eq_self.mpr
    intro a ha
    simpa using hhref a (List.mem_of_mem_filter ha)
  constructor
  · intro hK
    have hz : assets.filter (fun a => f a.key) = [] := List.length_eq_zero.mp hK
    refine ⟨chars "No asset key matching the filter was found", ?_⟩
    simp [getBucketNamesAndPfxs, hlen, hfil, hz]
  · intro hK
    have hz : (assets.filter (fun a => f a.key)).isEmpty = false := by
      cases hfl : assets.filter (fun a => f a.key) with
      | nil => rw [hfl] at hK; simp at hK
      | cons x xs => simp
    refine ⟨(assets.filter (fun a => f a.key)).map (fun a => bp (some (a.href.getD []))),
      ?_, by simp⟩
    simp [getBucketNamesAndPfxs, hlen, hfil, hz]

/-- Witness for C5: of three assets the filter keeps two, and the
planner yields exactly two pairs. -/
theorem claim5_planner_witness :
    assetsC5 ≠ [] ∧ (∀ a ∈ assetsC5, a.href.isSome) ∧
    (assetsC5.filter (fun a => filtC5 a.key)).length = 2 ∧
    (∃ l, getBucketNamesAndPfxs bpC5 assetsC5 (some filtC5) false = .ok l ∧
      l.length = (assetsC5.filter (fun a => filtC5 a.key)).length) :=
  ⟨by decide, by decide, by decide,
   (claim5_planner bpC5 assetsC5 filtC5 (by decide) (by decide)).2 (by decide)⟩

/-- Strategies invoked by the chain loop all come from the supplied
method list (prefixed by the accumulator). -/
theorem authChainGo_attempted_subset (oracle : Nat → ProbeRes) (d : List (Str × Str)) :
    ∀ (ms acc : List Nat), (authChainGo oracle d ms acc).2 ⊆ acc ++ ms := by
  intro ms
  induction ms with
  | nil => intro acc; simp [authChainGo]
  | cons m ms ih =>
    intro acc
    have hsub : acc ++ [m] ++ ms ⊆ acc ++ m :: ms := by
      intro x hx
      simp only [List.mem_append, List.mem_cons, List.mem_singleton] at hx ⊢
      tauto
    have hsng : acc ++ [m] ⊆ acc ++ m :: ms := by
      intro x hx
      simp only [List.mem_append, List.mem_cons, List.mem_singleton] at hx ⊢
      tauto
    simp only [authChainGo]
    cases htry : tryAuthMethod oracle d m with
    | objects => exact hsng
    | noneRes => exact fun x hx => hsub (ih (acc ++ [m]) hx)
    | errClient code =>
      by_cases hc : code ∈ awsAuthErrorCodes
      · simp only [if_pos hc]
        exact fun x hx => hsub (ih (acc ++ [m]) hx)
      · simp only [if_neg hc]
        exact hsng
    | errProfileNotFound => exact fun x hx => hsub (ih (acc ++ [m]) hx)

/-- When every listed strategy fails without producing objects and any
client error it raises is auth-classified, the chain loop ends in
AuthenticationError. -/
theorem authChainGo_exhaust (oracle : Nat → ProbeRes) (d : List (Str × Str)) :
    ∀ (ms acc : List Nat),
      (∀ m ∈ ms, tryAuthMethod oracle d m ≠ .objects ∧
        ∀ code, tryAuthMethod oracle d m = .errClient code → code ∈ awsAuthErrorCodes) →
      (authChainGo oracle d ms acc).1 = .authError := by
  intro ms
  induction ms with
  | nil => intro acc _; simp [authChainGo]
  | cons m ms ih =>
    intro acc h
    have hm := h m (by simp)
    have hrest : ∀ x ∈ ms, tryAuthMethod oracle d x ≠ .objects ∧
        ∀ code, tryAuthMethod oracle d x = .errClient code → code ∈ awsAuthErrorCodes :=
      fun x hx => h x (by simp [hx])
    simp only [authChainGo]
    cases htry : tryAuthMethod oracle d m with
    | objects => exact absurd htry hm.1
    | noneRes => exact ih (acc ++ [m]) hrest
    | errClient code =>
      have hc : code ∈ awsAuthErrorCodes := hm.2 code htry
      simp only [if_pos hc]
      exact ih (acc ++ [m]) hrest
    | errProfileNotFound => exact ih (acc ++ [m]) hrest

/-- Counterexample to C4: with an explicit (invalid) key pair supplied
and the key-pair probe failing with a classified auth error, the chain
raises AuthenticationError and the ambient environment strategy
(index 3) is never attempted, contrary to the claim that the chain
proceeds to attempt it. -/
theorem claim4_counterexample :
    tryAuthMethod oracleC4 dKeysC4 2 = .errClient (chars "AccessDenied") ∧
    (chars "AccessDenied") ∈ awsAuthErrorCodes ∧
    (getAuthenticatedObjects oracleC4 dKeysC4).1 = .authError ∧
    3 ∉ (getAuthenticatedObjects oracleC4 dKeysC4).2 := by
  decide

/-- Claim C4 (amended): whenever any credential dict is supplied --
the explicit key pair valid or not -- the ambient environment strategy
is never attempted; if every remaining strategy fails with classified
errors the chain raises AuthenticationError instead of falling back to
the environment. -/
theorem claim4_env_never_attempted (oracle : Nat → ProbeRes) (d : List (Str × Str))
    (hd : d ≠ []) :
    3 ∉ (getAuthenticatedObjects oracle d).2 ∧
    ((∀ m, tryAuthMethod oracle d m ≠ .objects ∧
        ∀ code, tryAuthMethod oracle d m = .errClient code → code ∈ awsAuthErrorCodes) →
      (getAuthenticatedObjects oracle d).1 = .authError) := by
  have hmeth : (if d ≠ [] then [0, 1, 2] else [0, 1, 2, 3]) = [0, 1, 2] := if_pos hd
  constructor
  · intro hmem
    have := authChainGo_attempted_subset oracle d (if d ≠ [] then [0, 1, 2] else [0, 1, 2, 3]) []
      (by simpa [getAuthenticatedObjects] using hmem)
    rw [hmeth] at this
    simp at this
  · intro hall
    simp only [getAuthenticatedObjects, hmeth]
    exact authChainGo_exhaust oracle d [0, 1, 2] [] (fun m _ => hall m)

/-- Witness for the amended C4 at the concrete credential dict and
probe oracle. -/
theorem claim4_env_never_attempted_witness :
    dKeysC4 ≠ [] ∧ 3 ∉ (getAuthenticatedObjects oracleC4 dKeysC4).2 :=
  ⟨by decide, (claim4_env_never_attempted oracleC4 dKeysC4 (by decide)).1⟩

/-- Claim C6 (failing input): on an object whose size is exactly one
4 MiB window, the loop condition chunk_start less-or-equal size admits
one extra iteration: after reporting and yielding the full content the
generator issues a further ranged read starting at offset size, which
is not satisfiable and aborts the stream with a DownloadError, instead
of stopping once the size is covered as the claim states. -/
theorem claim6_extra_window_bug (content : Bytes) (hlen : content.length = chunkSizeConst) :
    getChunkParts content =
      ([.progress chunkSizeConst, .data content],
       some (chars "DownloadError: InvalidRange")) := by
  have hpos : 0 < chunkSizeConst := by decide
  have hfuel : content.length / chunkSizeConst + 2 = 3 := by
    rw [hlen, Nat.div_self hpos]
  have h1 : rangedRead content 0 (0 + chunkSizeConst - 1) = .ok content := by
    rw [rangedRead, if_pos (by omega)]
    have : 0 + chunkSizeConst - 1 - 0 + 1 = chunkSizeConst := by omega
    rw [List.drop_zero, this, ← hlen, List.take_length]
  have h2 : rangedRead content (0 + chunkSizeConst) (0 + chunkSizeConst + chunkSizeConst - 1) =
      .error (chars "InvalidRange") := by
    rw [rangedRead, if_neg (by omega)]
  rw [getChunkParts, hfuel]
  rw [show (3 : Nat) = 2 + 1 from rfl]
  rw [getChunkPartsGo, if_pos (by omega), h1]
  rw [show (2 : Nat) = 1 + 1 from rfl]
  rw [getChunkPartsGo, if_pos (by omega), h2]
  simp [hlen]
  decide

/-- Witness for C6 at a concrete 4 MiB object. -/
theorem claim6_extra_window_bug_witness :
    (List.replicate chunkSizeConst 0).length = chunkSizeConst ∧
    getChunkParts (List.replicate chunkSizeConst (0 : Nat)) =
      ([.progress chunkSizeConst, .data (List.replicate chunkSizeConst 0)],
       some (chars "DownloadError: InvalidRange")) :=
  ⟨List.length_replicate chunkSizeConst 0,
   claim6_extra_window_bug (List.replicate chunkSizeConst 0)
     (List.length_replicate chunkSizeConst 0)⟩

/-- One zip entry is produced per surviving object whose destination
resolves. -/
theorem zipEntriesOf_length (mt : Nat) (p : Product) (bs : Bool) (c : Str) :
    ∀ chunks, (zipEntriesOf mt p bs false c chunks).length =
      (chunks.filterMap (fun ch => (getChunkDestPath p ch.key none bs).toOption)).length := by
  intro chunks
  induction chunks with
  | nil => rfl
  | cons ch rest ih =>
    simp only [zipEntriesOf, List.filterMap_cons] at ih ⊢
    cases hd : getChunkDestPath p ch.key none bs with
    | error e => simpa [hd, Except.toOption] using ih
    | ok rp => simpa [hd, Except.toOption] using ih

/-- Every zip entry carries the shared synthetic timestamp and the
fixed permission bits 0o600. -/
theorem zipEntriesOf_fields (mt : Nat) (p : Product) (bs fl : Bool) (c : Str)
    (chunks : List SChunk) :
    ∀ e ∈ zipEntriesOf mt p bs fl c chunks, e.modifiedAt = mt ∧ e.perms = 384 := by
  intro e he
  obtain ⟨ch, _, hf⟩ := List.mem_filterMap.mp he
  cases hd : getChunkDestPath p ch.key none bs with
  | error msg => rw [hd] at hf; simp at hf
  | ok rp =>
    rw [hd] at hf
    simp only [Option.some.injEq] at hf
    rw [← hf]
    exact ⟨rfl, rfl⟩

/-- Counterexample to C7: a product without asset values and exactly
one surviving object whose destination resolves is answered with the
zip response, not the raw response the claim requires for a single
surviving object (the code branches on the number of asset values,
not of objects). -/
theorem claim7_counterexample :
    [chunkC7].length = 1 ∧
    (∃ pth, getChunkDestPath prodPlain chunkC7.key none false = .ok pth) ∧
    isRawResp (streamDownloadDict (fun s => s) 0 prodPlain false false [] [chunkC7]) = false := by
  refine ⟨rfl, ⟨chars "a/B02.jp2", rfl⟩, by decide⟩

/-- Claim C7 (amended): the response mode is decided by the number of
surviving asset values.  With exactly one asset value the raw chunk
sequence is returned with a content-disposition naming the basename of
the first surviving object key, plus a content-type header when the
asset declares one; otherwise the response is a zip archive named
after the sanitized product title with media type application/zip,
holding one entry (path, shared timestamp, permission bits 0o600,
declared size, chunk stream) per surviving object. -/
theorem claim7_stream_response (sf : Str → Str) (mt : Nat) (p : Product) (bs : Bool)
    (avs : List Asset) (chunks : List SChunk) :
    (avs.length = 1 →
      streamDownloadDict sf mt p bs false avs chunks =
        .raw (rawStreamGo p bs chunks).1 (rawStreamGo p bs chunks).2
          ((chars "content-disposition",
            chars "attachment; filename=" ++ basenameOf (chunks.headD defaultChunk).key) ::
            hdrsTypeOf avs)) ∧
    (avs.length ≠ 1 →
      ∃ entries,
        streamDownloadDict sf mt p bs false avs chunks =
          .zipped entries (chars "application/zip")
            [(chars "content-disposition",
              chars "attachment; filename=" ++ sf p.props.title ++ chars ".zip")] ∧
        entries.length =
          (chunks.filterMap (fun ch => (getChunkDestPath p ch.key none bs).toOption)).length ∧
        ∀ e ∈ entries, e.modifiedAt = mt ∧ e.perms = 384) := by
  constructor
  · intro h1
    simp [streamDownloadDict, h1]
  · intro h1
    refine ⟨zipEntriesOf mt p bs false [] chunks, ?_, zipEntriesOf_length mt p bs [] chunks,
      zipEntriesOf_fields mt p bs false [] chunks⟩
    simp [streamDownloadDict, h1]

/-- Witness for the amended C7: with zero asset values and one
surviving object the response is the zip archive of one entry. -/
theorem claim7_stream_response_witness :
    ([] : List Asset).length ≠ 1 ∧
    ∃ entries,
      streamDownloadDict (fun s => s) 0 prodPlain false false [] [chunkC7] =
        .zipped entries (chars "application/zip")
          [(chars "content-disposition",
            chars "attachment; filename=" ++ prodPlain.props.title ++ chars ".zip")] ∧
      entries.length =
        ([chunkC7].filterMap
          (fun ch => (getChunkDestPath prodPlain ch.key none false).toOption)).length ∧
      ∀ e ∈ entries, e.modifiedAt = 0 ∧ e.perms = 384 :=
  ⟨by decide,
   (claim7_stream_response (fun s => s) 0 prodPlain false [] [chunkC7]).2 (by decide)⟩

/-- Splitting never yields an empty piece list. -/
theorem splitOnChar_ne_nil (sep : Char) (l : Str) : splitOnChar sep l ≠ [] := by
  induction l with
  | nil => simp [splitOnChar]
  | cons c t ih =>
    simp only [splitOnChar]
    cases h : splitOnChar sep t with
    | nil => simp
    | cons s rest => by_cases hc : c = sep <;> simp [hc]

/-- Splitting at a leading separator produces an empty first piece. -/
theorem splitOnChar_cons_sep (sep : Char) (r : Str) :
    splitOnChar sep (sep :: r) = [] :: splitOnChar sep r := by
  simp only [splitOnChar]
  cases h : splitOnChar sep r with
  | nil => exact absurd h (splitOnChar_ne_nil sep r)
  | cons s rest => simp

/-- Splitting below a non-separator character extends the first piece. -/
theorem splitOnChar_cons_ne (sep c : Char) (r : Str) (hc : c ≠ sep) :
    splitOnChar sep (c :: r) =
      (c :: ((splitOnChar sep r).headD [])) :: (splitOnChar sep r).tail := by
  simp only [splitOnChar]
  cases h : splitOnChar sep r with
  | nil => exact absurd h (splitOnChar_ne_nil sep r)
  | cons s rest => simp [hc]

/-- The default head of a piece list is one of its pieces. -/
theorem headD_mem_splitOnChar (sep : Char) (l : Str) :
    (splitOnChar sep l).headD [] ∈ splitOnChar sep l := by
  cases h : splitOnChar sep l with
  | nil => exact absurd h (splitOnChar_ne_nil sep l)
  | cons s rest => simp

/-- Tail pieces are pieces. -/
theorem tail_subset_splitOnChar (sep : Char) (l : Str) :
    ∀ x ∈ (splitOnChar sep l).tail, x ∈ splitOnChar sep l := by
  cases h : splitOnChar sep l with
  | nil => exact absurd h (splitOnChar_ne_nil sep l)
  | cons s rest => intro x hx; simp at hx; simp [hx]

/-- No piece of a split contains the separator. -/
theorem mem_splitOnChar_not_sep (sep : Char) (l : Str) :
    ∀ x ∈ splitOnChar sep l, sep ∉ x := by
  induction l with
  | nil =>
    intro x hx
    simp [splitOnChar] at hx
    simp [hx]
  | cons c t ih =>
    intro x hx
    by_cases hc : c = sep
    · subst hc
      rw [splitOnChar_cons_sep] at hx
      rcases List.mem_cons.mp hx with he | hm
      · simp [he]
      · exact ih x hm
    · rw [splitOnChar_cons_ne sep c t hc] at hx
      rcases List.mem_cons.mp hx with he | hm
      · subst he
        intro hmem
        rcases List.mem_cons.mp hmem with he2 | hm2
        · exact hc he2.symm
        · exact ih _ (headD_mem_splitOnChar sep t) hm2
      · exact ih x (tail_subset_splitOnChar sep t x hm)

/-- A separator-free string splits into itself. -/
theorem splitOnChar_no_sep (sep : Char) (x : Str) (hx : sep ∉ x) :
    splitOnChar sep x = [x] := by
  induction x with
  | nil => rfl
  | cons c t ih =>
    have hc : c ≠ sep := fun h => hx (h ▸ List.mem_cons_self c t)
    have ht : sep ∉ t := fun h => hx (List.mem_cons_of_mem c h)
    rw [splitOnChar_cons_ne sep c t hc, ih ht]
    rfl

/-- Splitting past one separator-free piece and a separator. -/
theorem splitOnChar_append_sep (sep : Char) (x r : Str) (hx : sep ∉ x) :
    splitOnChar sep (x ++ sep :: r) = x :: splitOnChar sep r := by
  induction x with
  | nil => simpa using splitOnChar_cons_sep sep r
  | cons c t ih =>
    have hc : c ≠ sep := fun h => hx (h ▸ List.mem_cons_self c t)
    have ht : sep ∉ t := fun h => hx (List.mem_cons_of_mem c h)
    rw [List.cons_append, splitOnChar_cons_ne sep c _ hc, ih ht]
    simp

/-- Splitting inverts joining of nonempty separator-free piece lists. -/
theorem splitSlash_joinSlash (ps : List Str) (hne : ps ≠ [])
    (hsep : ∀ x ∈ ps, '/' ∉ x) : splitSlash (joinSlash ps) = ps := by
  induction ps with
  | nil => exact absurd rfl hne
  | cons x xs ih =>
    cases xs with
    | nil => exact splitOnChar_no_sep '/' x (hsep x (List.mem_cons_self x []))
    | cons y ys =>
      have hx : '/' ∉ x := hsep x (List.mem_cons_self x (y :: ys))
      show splitOnChar '/' (joinSlash (x :: y :: ys)) = x :: y :: ys
      rw [show joinSlash (x :: y :: ys) = x ++ '/' :: joinSlash (y :: ys) from rfl]
      rw [splitOnChar_append_sep '/' x _ hx]
      have h2 := ih (by simp) (fun z hz => hsep z (List.mem_cons_of_mem x hz))
      rw [show splitSlash (joinSlash (y :: ys)) =
        splitOnChar '/' (joinSlash (y :: ys)) from rfl] at h2
      rw [h2]

/-- The empty string is a substring of every string. -/
theorem strContainsB_nil (s : Str) : strContainsB [] s = true := by
  cases s <;> simp [strContainsB, List.isPrefixOf]

/-- The containing-prefix count never exceeds the bucket pair count. -/
theorem countContaining_le (pairs : List (Str × Str)) (bucket c : Str) :
    countContaining pairs bucket c ≤ bucketPfxCount pairs bucket := by
  rw [countContaining, bucketPfxCount]
  have hcomm : (fun q : Str × Str => decide (q.1 = bucket) && strContainsB c q.2) =
      (fun q : Str × Str => strContainsB c q.2 && decide (q.1 = bucket)) := by
    funext q
    rw [Bool.and_comm]
  rw [hcomm, ← List.filter_filter]
  exact List.length_filter_le _ _

/-- When the containing count is not short of the bucket count, every
prefix of the bucket contains the candidate. -/
theorem countContaining_full (pairs : List (Str × Str)) (bucket c : Str)
    (h : ¬(countContaining pairs bucket c < bucketPfxCount pairs bucket)) :
    ∀ q ∈ pairs, q.1 = bucket → strContainsB c q.2 = true := by
  have heq : countContaining pairs bucket c = bucketPfxCount pairs bucket :=
    Nat.le_antisymm (countContaining_le pairs bucket c) (Nat.not_lt.mp h)
  intro q hq hqb
  have hform : countContaining pairs bucket c =
      ((pairs.filter (fun q => decide (q.1 = bucket))).filter
        (fun q => strContainsB c q.2)).length := by
    rw [countContaining, List.filter_filter]
    have hcomm : (fun q : Str × Str => strContainsB c q.2 && decide (q.1 = bucket)) =
        (fun q : Str × Str => decide (q.1 = bucket) && strContainsB c q.2) := by
      funext a
      rw [Bool.and_comm]
    rw [hcomm]
  rw [hform, bucketPfxCount] at heq
  have hall := List.filter_length_eq_length.mp heq
  exact hall q (List.mem_filter.mpr ⟨hq, by simp [hqb]⟩)

/-- Loop invariant of the compaction: every exit value is a candidate
that passed the containment test (or the empty base), hence a
substring of every prefix of the bucket. -/
theorem compactGo_contains (pairs : List (Str × Str)) (bucket : Str) (splits : List Str) :
    ∀ (fuel i : Nat), 1 ≤ i → splits.length < i + fuel →
      (∀ j, 1 ≤ j → j < i →
        ¬(countContaining pairs bucket (joinTake splits j) < bucketPfxCount pairs bucket)) →
      ∀ q ∈ pairs, q.1 = bucket →
        strContainsB (compactGo pairs bucket splits i fuel) q.2 = true := by
  intro fuel
  induction fuel with
  | zero =>
    intro i hi hbound hinv q hq hqb
    rw [compactGo]
    rcases Nat.eq_zero_or_pos (splits.length - 1) with hz | hp
    · rw [joinTake, hz]
      exact strContainsB_nil q.2
    · exact countContaining_full pairs bucket _ (hinv _ hp (by omega)) q hq hqb
  | succ fuel ih =>
    intro i hi hbound hinv q hq hqb
    rw [compactGo]
    by_cases hlt : i < splits.length
    · rw [if_pos hlt]
      by_cases hbad :
          countContaining pairs bucket (joinTake splits i) < bucketPfxCount pairs bucket
      · rw [if_pos hbad]
        rcases Nat.eq_zero_or_pos (i - 1) with hz | hp
        · rw [joinTake, hz]
          exact strContainsB_nil q.2
        · exact countContaining_full pairs bucket _ (hinv _ hp (by omega)) q hq hqb
      · rw [if_neg hbad]
        refine ih (i + 1) (by omega) (by omega) ?_ q hq hqb
        intro j hj1 hj2
        rcases Nat.lt_or_ge j i with hji | hji
        · exact hinv j hj1 hji
        · have : j = i := by omega
          rw [this]
          exact hbad
    · rw [if_neg hlt]
      rcases Nat.eq_zero_or_pos (splits.length - 1) with hz | hp
      · rw [joinTake, hz]
        exact strContainsB_nil q.2
      · exact countContaining_full pairs bucket _ (hinv _ hp (by omega)) q hq hqb

/-- Every value of the compaction loop is a join of a leading run of
segments of the processed prefix. -/
theorem compactGo_shape (pairs : List (Str × Str)) (bucket : Str) (splits : List Str) :
    ∀ (fuel i : Nat), ∃ j, compactGo pairs bucket splits i fuel = joinTake splits j := by
  intro fuel
  induction fuel with
  | zero => intro i; exact ⟨splits.length - 1, rfl⟩
  | succ fuel ih =>
    intro i
    rw [compactGo]
    by_cases hlt : i < splits.length
    · rw [if_pos hlt]
      by_cases hbad :
          countContaining pairs bucket (joinTake splits i) < bucketPfxCount pairs bucket
      · rw [if_pos hbad]; exact ⟨i - 1, rfl⟩
      · rw [if_neg hbad]; exact ih (i + 1)
    · rw [if_neg hlt]; exact ⟨splits.length - 1, rfl⟩

/-- A join of leading segments of a path is a path-segment ancestor of
that path. -/
theorem joinTake_seg_ancestor (pfx : Str) (j : Nat) :
    isSegAncestorB (joinTake (splitSlash pfx) j) pfx = true := by
  rcases Nat.eq_zero_or_pos j with hz | hp
  · subst hz
    simp [isSegAncestorB, joinTake, joinSlash]
  · rw [isSegAncestorB]
    have hne : (splitSlash pfx).take j ≠ [] := by
      have h1 : splitSlash pfx ≠ [] := splitOnChar_ne_nil '/' pfx
      cases h : splitSlash pfx with
      | nil => exact absurd h h1
      | cons s rest =>
        cases j with
        | zero => omega
        | succ jj => simp [h]
    have hsplit : splitSlash (joinTake (splitSlash pfx) j) = (splitSlash pfx).take j := by
      rw [joinTake]
      exact splitSlash_joinSlash _ hne
        (fun x hx => mem_splitOnChar_not_sep '/' pfx x (List.mem_of_mem_take hx))
    rw [hsplit]
    have : (splitSlash pfx).take j <+: splitSlash pfx := List.take_prefix j _
    simp [List.isPrefixOf_iff_prefix.mpr this]

/-- Counterexample to C3: with bucket pairs (b, a/b) and (b, xa/c),
processing prefix a/b compacts to the base a, which is merely a
substring of xa/c and not a path-segment ancestor of it -- listing
under a does not cover xa/c. -/
theorem claim3_counterexample :
    commonBaseFor pairsC3 (chars "b") (chars "a/b") = chars "a" ∧
    isSegAncestorB (chars "a") (chars "xa/c") = false ∧
    (chars "b", chars "xa/c") ∈ pairsC3 := by
  decide

/-- Claim C3 (amended): the compacted base computed before
authentication is a Python substring of every original prefix destined
for that bucket -- substring containment is what the code tests, not
path-segment ancestry -- and is a path-segment ancestor of the prefix
of the pair being processed. -/
theorem claim3_compaction_substring (pairs : List (Str × Str)) (bucket pfx : Str) :
    (∀ q ∈ pairs, q.1 = bucket →
      strContainsB (commonBaseFor pairs bucket pfx) q.2 = true) ∧
    isSegAncestorB (commonBaseFor pairs bucket pfx) pfx = true := by
  constructor
  · intro q hq hqb
    rw [commonBaseFor]
    exact compactGo_contains pairs bucket (splitSlash pfx) ((splitSlash pfx).length + 1) 1
      (by omega) (by omega) (by omega) q hq hqb
  · rw [commonBaseFor]
    obtain ⟨j, hj⟩ :=
      compactGo_shape pairs bucket (splitSlash pfx) ((splitSlash pfx).length + 1) 1
    rw [hj]
    exact joinTake_seg_ancestor pfx j

/-- Witness for the amended C3 at the concrete pair list. -/
theorem claim3_compaction_substring_witness :
    strContainsB (commonBaseFor pairsC3 (chars "b") (chars "a/b")) (chars "xa/c") = true ∧
    isSegAncestorB (commonBaseFor pairsC3 (chars "b") (chars "a/b")) (chars "a/b") = true :=
  ⟨(claim3_compaction_substring pairsC3 (chars "b") (chars "a/b")).1
     (chars "b", chars "xa/c") (by decide) rfl,
   (claim3_compaction_substring pairsC3 (chars "b") (chars "a/b")).2⟩

/-- Claim C10: for every S2_MSI product whose title does not match the
structured title grammar, resolving a key matching the S2 L2A tile
image rule does not raise; the absent date token is interpolated as
the literal string None (Python percent-s conversion of None). -/
theorem claim10_title_none_interpolation (p : Product) (pt : Str)
    (hpt : p.productType = some pt) (hne : pt ≠ [])
    (hsub : strContainsB (chars "S2_MSI") pt = true)
    (ht : titleSearch p.props.title = none)
    (key : Str) (g : TileImgG) (hk : s2l2aTileImgMatch key = some g) :
    getChunkDestPath p key none true =
      .ok (chars "GRANULE/" ++ g.num ++ chars "/IMG_DATA/R" ++ g.res ++ chars "/T" ++
        g.t1 ++ g.t2 ++ g.t3 ++ chars "_" ++ chars "None" ++ chars "_" ++ g.file ++
        chars "_" ++ g.res ++ chars ".jp2") := by
  have h1 : (ctxOf p).1 = none := by
    simp only [ctxOf, hpt]
    rw [if_pos ⟨hne, hsub⟩]
    simp [ht]
  simp only [getChunkDestPath, hk]
  rw [h1]
  rfl

/-- Witness for C10: the unparsable title FOO resolves the example key
to the path carrying the literal None token. -/
theorem claim10_title_none_interpolation_witness :
    titleSearch prodFoo.props.title = none ∧
    getChunkDestPath prodFoo keyC1 none true =
      .ok (chars "GRANULE/0/IMG_DATA/R10m/T31TCJ_None_B02_10m.jp2") :=
  ⟨rfl,
   claim10_title_none_interpolation prodFoo (chars "S2_MSI_L2A") rfl (by decide)
     (by decide) rfl keyC1
     ⟨chars "31", chars "T", chars "CJ", chars "0", chars "10m", chars "B02"⟩ rfl⟩

/-- Inversion of the conditions under which the dot-plus tail of a
pattern accepts the remaining segments. -/
theorem dotPlusTail_inv (rest : List Str) (rs : Str) (h : dotPlusTail rest = some rs) :
    rs = joinSlash rest ∧ rs ≠ [] ∧ rs.all isDotC = true := by
  rw [show dotPlusTail rest =
    (if joinSlash rest ≠ [] ∧ (joinSlash rest).all isDotC = true then
      some (joinSlash rest) else none) from rfl] at h
  split at h
  · rename_i hcond
    injection h with h3
    subst h3
    exact ⟨rfl, hcond.1, hcond.2⟩
  · exact absurd h (by simp)

/-- Inversion of the QI-mask matcher: the key splits under the S2 tile
head with a qi segment followed by a nonempty tail whose last
underscore separates the base and suffix groups. -/
theorem s2TileQiMskMatch_inv (key : Str) (g : QiMskG)
    (h : s2TileQiMskMatch key = some g) :
    ∃ t1 t2 t3 rest rs,
      s2TileHead (splitSlash key) = some (t1, t2, t3, g.num, (chars "qi") :: rest) ∧
      dotPlusTail rest = some rs ∧
      splitLastUnderscore rs = some (g.base, g.sfx) ∧
      g.base ≠ [] ∧ qiMskSfxOk g.sfx = true := by
  unfold s2TileQiMskMatch at h
  split at h
  · rename_i t1 t2 t3 n q rest heq
    split at h
    · rename_i hq
      subst hq
      split at h
      · rename_i rs hdt
        split at h
        · rename_i base sfx hsl
          split at h
          · rename_i hcond
            injection h with h2
            refine ⟨t1, t2, t3, rest, rs, ?_, hdt, ?_, ?_, ?_⟩
            · rw [← h2]
              exact heq
            · rw [← h2]
              exact hsl
            · rw [← h2]
              exact hcond.1
            · rw [← h2]
              exact hcond.2
          · simp at h
        · simp at h
      · simp at h
    · simp at h
  · simp at h

/-- A key whose ninth segment is qi cannot match the S2 L2A tile image
rule, whose ninth segment must start with the letter R. -/
theorem qi_head_img_none (key : Str) (t1 t2 t3 n : Str) (rest : List Str)
    (hh : s2TileHead (splitSlash key) = some (t1, t2, t3, n, (chars "qi") :: rest)) :
    s2l2aTileImgMatch key = none := by
  unfold s2l2aTileImgMatch
  rw [hh]
  cases rest with
  | nil => rfl
  | cons r2 rest2 =>
    cases rest2 with
    | nil => rfl
    | cons r3 rest3 => rfl

/-- A key whose ninth segment is qi cannot match the S2 L2A auxiliary
rule, whose ninth segment is the literal auxiliary. -/
theorem qi_head_aux_none (key : Str) (t1 t2 t3 n : Str) (rest : List Str)
    (hh : s2TileHead (splitSlash key) = some (t1, t2, t3, n, (chars "qi") :: rest)) :
    s2l2aTileAuxMatch key = none := by
  unfold s2l2aTileAuxMatch
  rw [hh]
  simp
  intro hfalse
  exact absurd hfalse (by decide)

/-- On a QI-mask key the generic S2 tile rule also matches, with the
same num group and the file group starting with the qi segment. -/
theorem qi_head_gen_some (key : Str) (t1 t2 t3 n : Str) (rest : List Str) (rs : Str)
    (hh : s2TileHead (splitSlash key) = some (t1, t2, t3, n, (chars "qi") :: rest))
    (hdt : dotPlusTail rest = some rs) :
    s2TileGenMatch key = some ⟨n, chars "qi" ++ '/' :: rs⟩ := by
  obtain ⟨hrs, hne, hall⟩ := dotPlusTail_inv rest rs hdt
  cases rest with
  | nil => simp [joinSlash] at hrs; exact absurd hrs hne
  | cons r rest2 =>
    unfold s2TileGenMatch
    rw [hh]
    change Option.map (fun rs => ({ num := n, file := rs } : TileFileG))
      (dotPlusTail ((chars "qi") :: r :: rest2)) = _
    rw [show dotPlusTail ((chars "qi") :: r :: rest2) =
      (if joinSlash ((chars "qi") :: r :: rest2) ≠ [] ∧
          (joinSlash ((chars "qi") :: r :: rest2)).all isDotC = true then
        some (joinSlash ((chars "qi") :: r :: rest2)) else none) from rfl]
    rw [show joinSlash ((chars "qi") :: r :: rest2) =
      chars "qi" ++ '/' :: joinSlash (r :: rest2) from rfl]
    rw [← hrs]
    rw [if_pos ?hc]
    case hc =>
      refine ⟨by simp [chars], ?_⟩
      simp only [chars, List.all_append, List.all_cons, hall]
      decide
    simp

/-- The QI-mask destination path always differs from the generic rule
destination on the same key: after the shared GRANULE prefix and num
segment the former continues with an uppercase QI_DATA segment and the
latter with the lowercase qi segment. -/
theorem qiMsk_path_ne_gen_path (n base sfx rs : Str) :
    chars "GRANULE/" ++ n ++ chars "/QI_DATA/MSK_" ++ base ++ chars "PRB_" ++ sfx ≠
      chars "GRANULE/" ++ n ++ chars "/" ++ (chars "qi" ++ '/' :: rs) := by
  intro heq
  simp only [List.append_assoc, List.append_cancel_left_eq] at heq
  simp [chars] at heq

/-- Claim C2: every key matching the S2 tile QI-mask rule is resolved
by that rule -- the two rules preceding it in the chain cannot match
such a key, so the first match wins -- and the result is never the
path built by the generic S2 tile catch-all rule, which also matches
the key but builds a different path. -/
theorem claim2_qi_msk_priority (p : Product) (key : Str) (g : QiMskG)
    (h : s2TileQiMskMatch key = some g) :
    getChunkDestPath p key none true =
      .ok (chars "GRANULE/" ++ g.num ++ chars "/QI_DATA/MSK_" ++ g.base ++
        chars "PRB_" ++ g.sfx) ∧
    ∀ gg, s2TileGenMatch key = some gg →
      chars "GRANULE/" ++ g.num ++ chars "/QI_DATA/MSK_" ++ g.base ++ chars "PRB_" ++ g.sfx ≠
        chars "GRANULE/" ++ gg.num ++ chars "/" ++ gg.file := by
  obtain ⟨t1, t2, t3, rest, rs, hh, hdt, hsl, hbne, hsfx⟩ := s2TileQiMskMatch_inv key g h
  have himg := qi_head_img_none key t1 t2 t3 g.num rest hh
  have haux := qi_head_aux_none key t1 t2 t3 g.num rest hh
  have hgen := qi_head_gen_some key t1 t2 t3 g.num rest rs hh hdt
  constructor
  · simp only [getChunkDestPath, himg, haux, h]
    rfl
  · intro gg hgg
    rw [hgen] at hgg
    injection hgg with h2
    rw [← h2]
    exact qiMsk_path_ne_gen_path g.num g.base g.sfx rs

/-- Witness for C2: the QI-mask key resolves to the mask path and not
to the generic path. -/
theorem claim2_qi_msk_priority_witness :
    s2TileQiMskMatch keyQiMsk = some ⟨chars "0", chars "CLD", chars "20m.jp2"⟩ ∧
    getChunkDestPath prodC1 keyQiMsk none true =
      .ok (chars "GRANULE/0/QI_DATA/MSK_CLDPRB_20m.jp2") ∧
    s2TileGenMatch keyQiMsk = some ⟨chars "0", chars "qi/CLD_20m.jp2"⟩ ∧
    chars "GRANULE/0/QI_DATA/MSK_CLDPRB_20m.jp2" ≠ chars "GRANULE/0/qi/CLD_20m.jp2" :=
  ⟨rfl,
   (claim2_qi_msk_priority prodC1 keyQiMsk ⟨chars "0", chars "CLD", chars "20m.jp2"⟩ rfl).1,
   rfl,
   fun heq =>
     (claim2_qi_msk_priority prodC1 keyQiMsk ⟨chars "0", chars "CLD", chars "20m.jp2"⟩ rfl).2
       ⟨chars "0", chars "qi/CLD_20m.jp2"⟩ rfl heq⟩

-- end of file marker













